import Mathlib

/-!
Shallow embedding of the multi-video-analysis backend
(`src/app/services/frame_extractor.py`, `simple_embeddings.py`,
`langchain_service.py`, `video_service.py` and `src/app/api/routes.py`),
together with theorems settling the specification claims.

Conventions: Python floats are modelled as `ℚ`; database tables as Lean
lists of rows; filesystem artifacts as explicit values threaded through the
functions; external collaborators (yt-dlp, ffmpeg, the CLIP model, the
OpenAI chains) as oracle parameters supplying exactly the data the Python
code reads from them; raised exceptions as `Except`/`Option` results.
-/

/-- A row of the `frames` table (`src/app/models/frame.py`). -/
structure Frame where
  id : ℕ
  video_id : ℕ
  timestamp : ℚ
  path : String
deriving Repr, DecidableEq

namespace FrameExtractor

/-- `db.query(Frame).filter(Frame.video_id == video_id)`: the rows of the
frames table belonging to one video. -/
def framesOf (db : List Frame) (video_id : ℕ) : List Frame :=
  db.filter (fun f => f.video_id == video_id)

/-- The SQL `ORDER BY timestamp` on a row list. -/
def orderByTimestamp (l : List Frame) : List Frame :=
  List.insertionSort (fun f g => f.timestamp ≤ g.timestamp) l

/-- Python's `min(frames, key=...)` over a possibly empty list: `none` on
the empty list, otherwise the first element attaining the minimal key. -/
def pyMin (key : Frame → ℚ) : List Frame → Option Frame
  | [] => none
  | x :: xs => some (xs.foldl (fun acc y => if key y < key acc then y else acc) x)

/-- The frame rows of `video_id` lying in the window
`[t - tolerance, t + tolerance]`, ordered by timestamp (the SQL query in
`get_frame_by_timestamp`). -/
def windowFrames (db : List Frame) (video_id : ℕ) (timestamp tolerance : ℚ) :
    List Frame :=
  orderByTimestamp ((framesOf db video_id).filter
    (fun f => timestamp - tolerance ≤ f.timestamp && f.timestamp ≤ timestamp + tolerance))

/-- `FrameExtractorService.get_frame_by_timestamp`
(`frame_extractor.py`, lines 188-211): filter the video's frames to the
window `[timestamp - tolerance, timestamp + tolerance]`, order by
timestamp, and return the frame minimizing `abs(f.timestamp - timestamp)`,
or `None` when the window is empty. -/
def get_frame_by_timestamp (db : List Frame) (video_id : ℕ)
    (timestamp tolerance : ℚ) : Option Frame :=
  pyMin (fun f => |f.timestamp - timestamp|) (windowFrames db video_id timestamp tolerance)

/-- A two-frame database used by concrete witnesses below. -/
def dbW : List Frame := [⟨1, 1, 10, "a"⟩, ⟨2, 1, 20, "b"⟩]

/-- The frame filename written by `extract_frames_from_video`:
`storage/frames/<video_id>/frame_<count>_<t>s.jpg`. -/
def framePath (video_id count : ℕ) (t : ℚ) : String :=
  "storage/frames/" ++ toString video_id ++ "/frame_" ++ toString count
    ++ "_" ++ toString t ++ "s.jpg"

/-- The `while current_time < duration` loop of
`extract_frames_from_video` (`frame_extractor.py`, lines 89-108).
`produced t = true` models "the ffmpeg invocation at timestamp `t` left a
file on disk" (`frame_path.exists()`).  Returns the list of timestamps at
which an extraction was attempted (one ffmpeg run per loop iteration) and
the recorded `(path, timestamp)` pairs.  The `fuel` argument only bounds
the iteration count; the wrapper below passes enough fuel for every
positive `interval`. -/
def extractAux (produced : ℚ → Bool) (fp : ℕ → ℚ → String) (d : ℚ) (i : ℕ) :
    ℕ → ℚ → ℕ → List ℚ × List (String × ℚ)
  | 0, _, _ => ([], [])
  | fuel + 1, t, c =>
    if t < d then
      let rest := extractAux produced fp d i fuel (t + i) (c + 1)
      (t :: rest.1, (if produced t then [(fp c t, t)] else []) ++ rest.2)
    else ([], [])

/-- Number of loop iterations: the least `n` with `n * i ≥ d`. -/
def numAttempts (d : ℚ) (i : ℕ) : ℕ := ⌈d / i⌉₊

/-- `natsFrom k m = [k, k+1, ..., k+m-1]`. -/
def natsFrom (k : ℕ) : ℕ → List ℕ
  | 0 => []
  | m + 1 => k :: natsFrom (k + 1) m

/-- `FrameExtractorService.extract_frames_from_video`
(`frame_extractor.py`, lines 60-113), with the probed duration and the
per-timestamp success of the ffmpeg tool supplied as oracles. -/
def extract_frames_from_video (produced : ℚ → Bool) (duration : ℚ)
    (video_id : ℕ) (interval : ℕ) : List ℚ × List (String × ℚ) :=
  extractAux produced (framePath video_id) duration interval (⌈duration⌉₊ + 1) 0 0

/-- Database/filesystem side state threaded through
`process_video_frames`: the frames table, the autoincrement id counter,
and a counter of yt-dlp download invocations. -/
structure ExtState where
  frames : List Frame
  nextFrameId : ℕ
  downloads : ℕ
deriving Repr, DecidableEq

/-- `FrameExtractorService.save_frame_records`
(`frame_extractor.py`, lines 115-138): insert one Frame row per
`(file_path, timestamp)` pair and commit. -/
def save_frame_records (video_id : ℕ) (frame_data : List (String × ℚ))
    (st : ExtState) : List Frame × ExtState :=
  let newFrames := frame_data.enum.map
    (fun p => Frame.mk (st.nextFrameId + p.1) video_id p.2.2 p.2.1)
  (newFrames,
   { st with
      frames := st.frames ++ newFrames
      nextFrameId := st.nextFrameId + frame_data.length })

/-- `FrameExtractorService.process_video_frames`
(`frame_extractor.py`, lines 140-182): if any frame row already exists for
the video, return the existing rows without downloading; otherwise
download (counted in `downloads`), extract and persist.  `download` is the
yt-dlp oracle, `produced`/`duration` the ffmpeg oracles. -/
def process_video_frames (st : ExtState) (video_id : ℕ)
    (download : Except String String) (produced : ℚ → Bool)
    (duration : ℚ) (interval : ℕ) : Except String (List Frame) × ExtState :=
  let existing := framesOf st.frames video_id
  if existing.isEmpty then
    match download with
    | .error e =>
      (.error ("Error processing video frames: " ++ e),
       { st with downloads := st.downloads + 1 })
    | .ok _path =>
      let frame_data := (extract_frames_from_video produced duration video_id interval).2
      let (frames, st') := save_frame_records video_id frame_data
        { st with downloads := st.downloads + 1 }
      (.ok frames, st')
  else (.ok existing, st)

end FrameExtractor

namespace SimpleEmbeddings

open FrameExtractor (framesOf)

/-- One entry of the pickled per-video embedding artifact
(`simple_embeddings.py`): a `{'frame_id', 'timestamp', 'embedding'}`
dictionary. -/
structure EmbItem where
  frame_id : ℕ
  timestamp : ℚ
  embedding : List ℚ
deriving Repr, DecidableEq

/-- The return dictionary of
`SimpleEmbeddingService.generate_frame_embeddings`: either
`{"error": msg, "processed": n}` or
`{"success": True, "processed": n, "total_frames": m, "embeddings_file": f}`. -/
inductive GenResult where
  | err (message : String) (processed : ℕ)
  | ok (processed total_frames : ℕ) (embeddings_file : Option String)
deriving Repr, DecidableEq

/-- The `(frame_id, timestamp, vector)` triples produced by one run of
`generate_frame_embeddings`: one per frame of the video whose image could
be loaded and embedded.  `loadEmbed f = none` models "image missing on
disk or any per-frame processing exception" (those frames are skipped);
`loadEmbed f = some v` models a successfully computed CLIP vector. -/
def producedTriples (db : List Frame) (video_id : ℕ)
    (loadEmbed : Frame → Option (List ℚ)) : List EmbItem :=
  (framesOf db video_id).filterMap
    (fun f => (loadEmbed f).map (fun v => EmbItem.mk f.id f.timestamp v))

/-- `SimpleEmbeddingService.generate_frame_embeddings`
(`simple_embeddings.py`, lines 40-100).  `prior` is the embedding artifact
on disk before the call; the second component of the result is the
artifact after the call.  The pickle file is written only inside
`if embeddings:` — when the run produced no triple the file is not
touched. -/
def generate_frame_embeddings (db : List Frame) (video_id : ℕ)
    (loadEmbed : Frame → Option (List ℚ)) (prior : Option (List EmbItem)) :
    GenResult × Option (List EmbItem) :=
  let frames := framesOf db video_id
  if frames.isEmpty then (.err "No frames found" 0, prior)
  else
    let embeddings := producedTriples db video_id loadEmbed
    if embeddings.isEmpty then
      (.ok 0 frames.length none, prior)
    else
      (.ok embeddings.length frames.length
        (some ("storage/embeddings/video_" ++ toString video_id
          ++ "/frame_embeddings.pkl")),
       some embeddings)

/-- C5 counterexample database: video 1 has one frame whose image file
cannot be loaded. -/
def dbC5 : List Frame := [⟨1, 1, 0, "storage/frames/1/frame_000000_0.00s.jpg"⟩]

/-- C5 counterexample prior artifact: one triple left over from an
earlier run. -/
def priorC5 : List EmbItem := [⟨99, 0, [1]⟩]

/-- An element of the `similarities` list built in
`search_visual_content`. -/
structure SearchHit where
  frame_id : ℕ
  timestamp : ℚ
  similarity : ℚ
deriving Repr, DecidableEq

/-- An element of the `detailed_results` list returned by
`search_visual_content`. -/
structure SearchResult where
  frame_id : ℕ
  timestamp : ℚ
  path : String
  similarity : ℚ
deriving Repr, DecidableEq

/-- `db.query(Frame).filter(Frame.id == frame_id).first()`. -/
def findFrame (db : List Frame) (frame_id : ℕ) : Option Frame :=
  db.find? (fun f => f.id == frame_id)

/-- `SimpleEmbeddingService.search_visual_content`
(`simple_embeddings.py`, lines 102-155).  External effects are oracles:
`loadModel` the CLIP model load, `artifactFile` the pickle on disk
(`none` = the file does not exist, `some (.error e)` = the file exists but
unpickling raises), `encodeQuery` the tokenizer/text-encoder run, and
`sim` the cosine-similarity computation.  Every raised exception is caught
by the enclosing `try`/`except`, which returns `[]`. -/
def search_visual_content (loadModel : Except String Unit) (db : List Frame)
    (artifactFile : Option (Except String (List EmbItem)))
    (encodeQuery : Except String (List ℚ))
    (sim : List ℚ → List ℚ → ℚ) (limit : ℕ) : List SearchResult :=
  match loadModel with
  | .error _ => []
  | .ok _ =>
    match artifactFile with
    | none => []
    | some (.error _) => []
    | some (.ok embeddings_data) =>
      if embeddings_data.isEmpty then []
      else
        match encodeQuery with
        | .error _ => []
        | .ok queryVec =>
          let similarities := embeddings_data.map (fun item =>
            SearchHit.mk item.frame_id item.timestamp (sim queryVec item.embedding))
          let sorted := List.insertionSort
            (fun a b => b.similarity ≤ a.similarity) similarities
          let results := sorted.take limit
          results.filterMap (fun r => (findFrame db r.frame_id).map
            (fun f => SearchResult.mk f.id f.timestamp f.path r.similarity))

instance : IsTotal SearchHit (fun a b => b.similarity ≤ a.similarity) :=
  ⟨fun a b => le_total b.similarity a.similarity⟩

instance : IsTrans SearchHit (fun a b => b.similarity ≤ a.similarity) :=
  ⟨fun _ _ _ hab hbc => le_trans hbc hab⟩

/-- C1 counterexample input: two frames of video 1 carrying the same
stored embedding vector. -/
def dbC1 : List Frame :=
  [⟨1, 1, 0, "storage/frames/1/f0.jpg"⟩, ⟨2, 1, 10, "storage/frames/1/f1.jpg"⟩]

/-- C1 counterexample artifact: both frames stored with the identical
(unit) vector, so any similarity computation gives them equal scores. -/
def artC1 : List EmbItem := [⟨1, 0, [1]⟩, ⟨2, 10, [1]⟩]

/-- Dot product: the cosine similarity of the unit-normalized vectors the
service stores and compares. -/
def dot (a b : List ℚ) : ℚ := ((a.zip b).map (fun p => p.1 * p.2)).sum

end SimpleEmbeddings

namespace VideoService

/-- Characters excluded from the regex capture group `([^&\n?#]+)`. -/
def allowedChar (c : Char) : Bool :=
  !(c == '&' || c == '\n' || c == '?' || c == '#')

/-- Try one alternative of the first URL pattern at the current position:
the literal followed by a nonempty greedy run of allowed characters. -/
def tryLit (lit cs : List Char) : Option (List Char) :=
  if lit.isPrefixOf cs then
    let cap := (cs.drop lit.length).takeWhile allowedChar
    if cap.isEmpty then none else some cap
  else none

/-- One attempt of pattern
`(?:youtube\.com/watch\?v=|youtu\.be/|youtube\.com/embed/)([^&\n?#]+)`
at the current position (alternatives tried in order). -/
def matchP1At (cs : List Char) : Option (List Char) :=
  match tryLit "youtube.com/watch?v=".toList cs with
  | some cap => some cap
  | none =>
    match tryLit "youtu.be/".toList cs with
    | some cap => some cap
    | none => tryLit "youtube.com/embed/".toList cs

/-- `re.search` with the first pattern: leftmost position at which the
pattern matches. -/
def searchP1 : List Char → Option (List Char)
  | [] => none
  | c :: cs =>
    match matchP1At (c :: cs) with
    | some cap => some cap
    | none => searchP1 cs

/-- All candidate captures for `.*[?&]v=([^&\n?#]+)` after the literal of
the second pattern, left to right; `.` does not match a newline, so
collection stops at the first `'\n'`. -/
def p2Caps : List Char → List (List Char)
  | [] => []
  | c :: cs =>
    if c == '\n' then []
    else
      let rest := p2Caps cs
      if c == '?' || c == '&' then
        match cs with
        | 'v' :: '=' :: tail =>
          let cap := tail.takeWhile allowedChar
          if cap.isEmpty then rest else cap :: rest
        | _ => rest
      else rest

/-- One attempt of pattern `youtube\.com/.*[?&]v=([^&\n?#]+)` at the
current position; the greedy `.*` selects the rightmost candidate. -/
def matchP2At (cs : List Char) : Option (List Char) :=
  if ("youtube.com/".toList).isPrefixOf cs then
    (p2Caps (cs.drop ("youtube.com/".toList).length)).getLast?
  else none

/-- `re.search` with the second pattern. -/
def searchP2 : List Char → Option (List Char)
  | [] => none
  | c :: cs =>
    match matchP2At (c :: cs) with
    | some cap => some cap
    | none => searchP2 cs

/-- `VideoService.extract_video_id` (`video_service.py`, lines 15-27;
the identical helper also appears in `langchain_service.py`, lines
41-53): try the two regex patterns in order, returning the first capture,
or `none` for the `ValueError` raised when neither matches. -/
def extract_video_id (url : String) : Option String :=
  match searchP1 url.toList with
  | some cap => some (String.mk cap)
  | none => (searchP2 url.toList).map String.mk

/-- A row of the `videos` table (`src/app/models/video.py`). -/
structure Video where
  id : ℕ
  url : String
  title : String
deriving Repr, DecidableEq

/-- The videos table plus its autoincrement counter. -/
structure VideoState where
  videos : List Video
  nextVideoId : ℕ
deriving Repr, DecidableEq

/-- `VideoService.create_video` (`video_service.py`, lines 29-53):
extract the YouTube id first (raising on failure, modelled as `.error`
with the transaction rolled back, i.e. the state returned unchanged),
then look up the URL and return the existing row, or insert and commit a
new row. -/
def create_video (st : VideoState) (url : String) (title : Option String) :
    Except String Video × VideoState :=
  match extract_video_id url with
  | none => (.error ("Could not extract video ID from URL: " ++ url), st)
  | some video_id_str =>
    match st.videos.find? (fun v => v.url == url) with
    | some existing => (.ok existing, st)
    | none =>
      let v : Video := ⟨st.nextVideoId, url, title.getD ("Video " ++ video_id_str)⟩
      (.ok v, ⟨st.videos ++ [v], st.nextVideoId + 1⟩)

end VideoService

namespace PyStr

/-- `str.split(sep)` for a one-character separator, over the character
list of the string (Python strings are sequences of code points). -/
def splitOnChar (sep : Char) : List Char → List (List Char)
  | [] => [[]]
  | c :: cs =>
    match splitOnChar sep cs with
    | [] => if c == sep then [[], []] else [[c]]
    | r :: rs => if c == sep then [] :: r :: rs else (c :: r) :: rs

/-- The whitespace stripped by `str.strip()` (the ASCII whitespace
characters occurring in the data this service handles). -/
def isSpace (c : Char) : Bool :=
  c == ' ' || c == '\t' || c == '\n' || c == '\r' || c == '\x0b' || c == '\x0c'

/-- `str.strip()`. -/
def trimChars (cs : List Char) : List Char :=
  ((cs.dropWhile isSpace).reverse.dropWhile isSpace).reverse

/-- `s.split('.', 1)[1]`: everything after the first `'.'`. -/
def afterFirstDot : List Char → List Char
  | [] => []
  | c :: cs => if c == '.' then cs else afterFirstDot cs

end PyStr

namespace LangChain

open PyStr

/-- One transcript segment returned by `YouTubeTranscriptApi`. -/
structure Segment where
  text : String
  start : ℚ
  duration : ℚ
deriving Repr, DecidableEq

/-- The dictionary returned by
`LangChainVideoService.process_transcript`. -/
structure TranscriptResult where
  success : Bool
  message : String
  segments_count : ℕ
  chunks_count : ℕ
deriving Repr, DecidableEq

/-- `LangChainVideoService.process_transcript`
(`langchain_service.py`, lines 75-164).  `segments` is what
`fetch_transcript` returned (`[]` when no transcript is available — the
exception is caught there); `chunks` is the text splitter's output over
the concatenated text, and `chromaOk` models whether
`Chroma.from_documents` succeeded. -/
def process_transcript (segments : List Segment) (chunks : List String)
    (chromaOk : Bool) : TranscriptResult :=
  if segments.isEmpty then
    ⟨false, "No transcript available for this video", 0, 0⟩
  else if !chromaOk then
    ⟨false, "Failed to create embeddings", segments.length, 0⟩
  else
    ⟨true, "Transcript processed successfully", segments.length, chunks.length⟩

/-- A section draft produced by `generate_sections`. -/
structure SectionDraft where
  title : String
  start_time : ℚ
  end_time : ℚ
deriving Repr, DecidableEq

/-- The marker stripping for one (stripped, nonempty) line of the reply:
`line.split('.', 1)[1].strip()` when the line starts with a digit and
contains a dot, dropping a leading `-`/`•` otherwise. -/
def cleanTitle (line : List Char) : List Char :=
  match line with
  | [] => []
  | c :: rest =>
    if c.isDigit && line.contains '.' then
      trimChars (afterFirstDot line)
    else if c == '-' || c == '•' then
      trimChars rest
    else line

/-- The title-parsing loop of `generate_sections`
(`langchain_service.py`, lines 274-292): split the model's reply into
lines, strip, drop empty lines, remove `1.`/`-`/`•` markers, and keep
lines whose length is strictly between 5 and 100. -/
def parseTitles (answer : String) : List String :=
  (splitOnChar '\n' answer.toList).filterMap (fun raw =>
    let line := trimChars raw
    if line.isEmpty then none
    else
      let cleaned := cleanTitle line
      if 5 < cleaned.length ∧ cleaned.length < 100 then
        some (String.mk cleaned)
      else none)

/-- The canned titles substituted when zero lines parse. -/
def fallbackTitles : List String :=
  ["Video Introduction", "Main Discussion", "Key Points", "Conclusion"]

/-- `LangChainVideoService.generate_sections`
(`langchain_service.py`, lines 241-319).  `chainExists` models whether a
vector store exists (`get_qa_chain` returned a chain); `qaResult` is the
language model's reply, `.error` when the chain invocation raised. -/
def generate_sections (chainExists : Bool) (qaResult : Except String String) :
    List SectionDraft :=
  if !chainExists then
    [⟨"Introduction", 0, 60⟩, ⟨"Main Content", 60, 240⟩, ⟨"Conclusion", 240, 300⟩]
  else
    match qaResult with
    | .error _ =>
      [⟨"Video Introduction", 0, 75⟩, ⟨"Main Content", 75, 225⟩, ⟨"Summary", 225, 300⟩]
    | .ok answer =>
      let titles0 := parseTitles answer
      let titles := if titles0.isEmpty then fallbackTitles else titles0
      let section_duration : ℚ := 300 / titles.length
      titles.enum.map (fun p =>
        ⟨p.2, (p.1 : ℚ) * section_duration, ((p.1 : ℚ) + 1) * section_duration⟩)

end LangChain

namespace Routes

open VideoService LangChain

/-- A row of the `sections` table (`src/app/models/section.py`). -/
structure SectionRow where
  video_id : ℕ
  title : String
  start_time : ℚ
  end_time : ℚ
deriving Repr, DecidableEq

/-- The `POST /upload` handler `upload_video` (`routes.py`, lines
64-114): create/look up the Video row, run `process_transcript`, then —
depending on its `success` flag — persist either the generated section
drafts (retimed at `i*60`) or the single fallback Section
`{title: "Video Content", start_time: 0, end_time: 300}`.  Returns the
video id, the transcript result, and the updated video and section
tables; `.error` models the HTTP 400 raised on exception. -/
def upload_video (vst : VideoState) (sections : List SectionRow) (url : String)
    (segments : List Segment) (chunks : List String) (chromaOk : Bool)
    (genSections : List SectionDraft) :
    Except String (ℕ × TranscriptResult × VideoState × List SectionRow) :=
  match create_video vst url none with
  | (.error e, _) => .error e
  | (.ok video, vst') =>
    let transcript_result := process_transcript segments chunks chromaOk
    if transcript_result.success then
      .ok (video.id, transcript_result, vst',
        sections ++ genSections.enum.map (fun p =>
          SectionRow.mk video.id p.2.title ((p.1 : ℚ) * 60) (((p.1 : ℚ) + 1) * 60)))
    else
      .ok (video.id, transcript_result, vst',
        sections ++ [SectionRow.mk video.id "Video Content" 0 300])

/-- `os.path.join("storage", file_path)` on character lists: an absolute
second argument replaces the first, otherwise the parts are joined with
one separator. -/
def ospJoin (a b : List Char) : List Char :=
  if b.head? == some '/' then b else a ++ '/' :: b

/-- The component folding of `os.path.abspath`/`normpath`: empty and `.`
components are dropped, `..` pops the last accumulated component (staying
at the root when the accumulator is empty). -/
def normalizeAux : List (List Char) → List (List Char) → List (List Char)
  | acc, [] => acc
  | acc, c :: cs =>
    if c.isEmpty || c == ['.'] then normalizeAux acc cs
    else if c == ['.', '.'] then normalizeAux acc.dropLast cs
    else normalizeAux (acc ++ [c]) cs

/-- `os.path.abspath(p)` with the current working directory `cwd` (given
as normalized absolute components): relative paths are resolved against
`cwd`. -/
def abspath (cwd : List (List Char)) (p : List Char) : List (List Char) :=
  if p.head? == some '/' then normalizeAux [] (PyStr.splitOnChar '/' p)
  else normalizeAux cwd (PyStr.splitOnChar '/' p)

/-- Render absolute components back to the path string compared by
`str.startswith` in the handler. -/
def render (comps : List (List Char)) : List Char :=
  comps.foldl (fun acc c => acc ++ '/' :: c) []

/-- `GET /frames/storage/{file_path}` handler `serve_frame_image`
(`routes.py`, lines 388-417): join the request path under `storage`,
404 when the file does not exist, then reject with 403 when the absolute
path string does not start with the absolute storage-directory string;
otherwise serve the file. -/
def serve_frame_image (cwd : List (List Char))
    (fileExists : List (List Char) → Bool) (file_path : String) :
    Except (ℕ × String) (List (List Char)) :=
  let storage_path := ospJoin "storage".toList file_path.toList
  let abs_storage_path := abspath cwd storage_path
  if !fileExists abs_storage_path then .error (404, "Frame image not found")
  else
    let abs_storage_dir := abspath cwd "storage".toList
    if !(render abs_storage_dir).isPrefixOf (render abs_storage_path) then
      .error (403, "Access denied")
    else .ok abs_storage_path

/-- A resolved path is inside the storage root exactly when the storage
root's component list is an initial segment of its component list. -/
def insideStorage (cwd : List (List Char)) (p : List (List Char)) : Bool :=
  (abspath cwd "storage".toList).isPrefixOf p

end Routes

/-!
The theorems: each claim-level theorem is marked with its claim id.
-/

namespace FrameExtractor

theorem foldlMin_mem (key : Frame → ℚ) (x : Frame) (xs : List Frame) :
    xs.foldl (fun acc y => if key y < key acc then y else acc) x ∈ x :: xs := by
  induction xs generalizing x with
  | nil => simp
  | cons y ys ih =>
    simp only [List.foldl_cons]
    by_cases hc : key y < key x
    · rw [if_pos hc]
      rcases List.mem_cons.mp (ih y) with h | h
      · rw [h]; simp
      · simp [h]
    · rw [if_neg hc]
      rcases List.mem_cons.mp (ih x) with h | h
      · rw [h]; simp
      · simp [h]

theorem foldlMin_le (key : Frame → ℚ) (x : Frame) (xs : List Frame) :
    ∀ z ∈ x :: xs,
      key (xs.foldl (fun acc y => if key y < key acc then y else acc) x) ≤ key z := by
  induction xs generalizing x with
  | nil => intro z hz; simp at hz; simp [hz]
  | cons y ys ih =>
    intro z hz
    simp only [List.foldl_cons]
    have hstep : key (if key y < key x then y else x) ≤ key x ∧
        key (if key y < key x then y else x) ≤ key y := by
      by_cases hc : key y < key x
      · simp [hc]; exact le_of_lt hc
      · simp [hc]; exact le_of_not_lt hc
    rcases List.mem_cons.mp hz with h | h
    · subst h
      exact le_trans (ih _ _ (List.mem_cons_self _ _)) hstep.1
    · rcases List.mem_cons.mp h with h' | h'
      · subst h'
        exact le_trans (ih _ _ (List.mem_cons_self _ _)) hstep.2
      · exact ih _ _ (List.mem_cons.mpr (Or.inr h'))

theorem pyMin_mem (key : Frame → ℚ) (l : List Frame) (f : Frame)
    (h : pyMin key l = some f) : f ∈ l := by
  cases l with
  | nil => simp [pyMin] at h
  | cons x xs =>
    simp only [pyMin, Option.some.injEq] at h
    exact h ▸ foldlMin_mem key x xs

theorem pyMin_le (key : Frame → ℚ) (l : List Frame) (f : Frame)
    (h : pyMin key l = some f) : ∀ z ∈ l, key f ≤ key z := by
  cases l with
  | nil => simp [pyMin] at h
  | cons x xs =>
    simp only [pyMin, Option.some.injEq] at h
    exact h ▸ foldlMin_le key x xs

theorem pyMin_eq_none (key : Frame → ℚ) (l : List Frame) :
    pyMin key l = none ↔ l = [] := by
  cases l <;> simp [pyMin]

theorem mem_orderByTimestamp (l : List Frame) (f : Frame) :
    f ∈ orderByTimestamp l ↔ f ∈ l :=
  List.Perm.mem_iff (List.perm_insertionSort _ l)

/-- C2: `get_frame_by_timestamp` returns a frame of the requested video
lying in `[t - w, t + w]` whose distance to `t` is minimal among that
video's frames in the window, and returns `none` exactly when no frame of
the video lies in the window. -/
theorem get_frame_by_timestamp_spec (db : List Frame) (video_id : ℕ)
    (t w : ℚ) (hw : 0 ≤ w) :
    (∀ f, get_frame_by_timestamp db video_id t w = some f →
      f ∈ db ∧ f.video_id = video_id ∧
      t - w ≤ f.timestamp ∧ f.timestamp ≤ t + w ∧
      ∀ g ∈ db, g.video_id = video_id → t - w ≤ g.timestamp → g.timestamp ≤ t + w →
        |f.timestamp - t| ≤ |g.timestamp - t|) ∧
    (get_frame_by_timestamp db video_id t w = none ↔
      ∀ g ∈ db, g.video_id = video_id →
        ¬ (t - w ≤ g.timestamp ∧ g.timestamp ≤ t + w)) := by
  have hmem : ∀ f, f ∈ windowFrames db video_id t w ↔
      f ∈ db ∧ f.video_id = video_id ∧ t - w ≤ f.timestamp ∧ f.timestamp ≤ t + w := by
    intro f
    rw [windowFrames, mem_orderByTimestamp, List.mem_filter, framesOf, List.mem_filter]
    constructor
    · rintro ⟨⟨hdb, hv⟩, hrange⟩
      simp only [beq_iff_eq] at hv
      simp only [Bool.and_eq_true, decide_eq_true_eq] at hrange
      exact ⟨hdb, hv, hrange.1, hrange.2⟩
    · rintro ⟨hdb, hv, h1, h2⟩
      refine ⟨⟨hdb, ?_⟩, ?_⟩
      · simp [hv]
      · simp [h1, h2]
  constructor
  · intro f hf
    have hf' := pyMin_mem _ _ _ hf
    have hchar := (hmem f).mp hf'
    refine ⟨hchar.1, hchar.2.1, hchar.2.2.1, hchar.2.2.2, ?_⟩
    intro g hg hgv hg1 hg2
    exact pyMin_le _ _ _ hf g ((hmem g).mpr ⟨hg, hgv, hg1, hg2⟩)
  · rw [get_frame_by_timestamp, pyMin_eq_none, List.eq_nil_iff_forall_not_mem]
    constructor
    · intro h g hg hgv hgr
      exact h g ((hmem g).mpr ⟨hg, hgv, hgr.1, hgr.2⟩)
    · intro h g hg
      have := (hmem g).mp hg
      exact h g this.1 this.2.1 ⟨this.2.2.1, this.2.2.2⟩

/-- Witness for C2 at a concrete database. -/
theorem get_frame_by_timestamp_spec_witness :
    (0 : ℚ) ≤ 5 ∧
    (∀ f, get_frame_by_timestamp dbW 1 12 5 = some f →
      f ∈ dbW ∧ f.video_id = 1 ∧
      (12 : ℚ) - 5 ≤ f.timestamp ∧ f.timestamp ≤ 12 + 5 ∧
      ∀ g ∈ dbW, g.video_id = 1 →
        (12 : ℚ) - 5 ≤ g.timestamp → g.timestamp ≤ 12 + 5 →
        |f.timestamp - 12| ≤ |g.timestamp - 12|) := by
  exact ⟨by norm_num, (get_frame_by_timestamp_spec dbW 1 12 5 (by norm_num)).1⟩

theorem mem_natsFrom (j k m : ℕ) : j ∈ natsFrom k m ↔ k ≤ j ∧ j < k + m := by
  induction m generalizing k with
  | zero => simp [natsFrom]
  | succ m ih =>
    simp only [natsFrom, List.mem_cons, ih]
    omega

theorem lt_numAttempts_iff (d : ℚ) (i : ℕ) (hi : 0 < i) (k : ℕ) :
    k < numAttempts d i ↔ ((k : ℚ) * i) < d := by
  have hi' : (0 : ℚ) < i := by exact_mod_cast hi
  rw [numAttempts, Nat.lt_ceil, lt_div_iff₀ hi']

theorem extractAux_eq (produced : ℚ → Bool) (fp : ℕ → ℚ → String) (d : ℚ)
    (i : ℕ) (hi : 0 < i) :
    ∀ fuel k, numAttempts d i - k ≤ fuel →
      extractAux produced fp d i fuel ((k : ℚ) * i) k =
        ((natsFrom k (numAttempts d i - k)).map (fun j : ℕ => ((j : ℚ) * i)),
         ((natsFrom k (numAttempts d i - k)).filter
             (fun j : ℕ => produced ((j : ℚ) * i))).map
           (fun j : ℕ => (fp j ((j : ℚ) * i), ((j : ℚ) * i)))) := by
  intro fuel
  induction fuel with
  | zero =>
    intro k hk
    have hnk : numAttempts d i - k = 0 := Nat.le_zero.mp hk
    simp [extractAux, hnk, natsFrom]
  | succ fuel ih =>
    intro k hk
    by_cases hlt : ((k : ℚ) * i) < d
    · have hkn : k < numAttempts d i := (lt_numAttempts_iff d i hi k).mpr hlt
      have hsub : numAttempts d i - k = (numAttempts d i - (k + 1)) + 1 := by omega
      have harg : (k : ℚ) * i + (i : ℚ) = ((k + 1 : ℕ) : ℚ) * i := by
        push_cast; ring
      have hrest := ih (k + 1) (by omega)
      simp only [extractAux, if_pos hlt, harg, hrest, hsub, natsFrom,
        List.map_cons, List.filter_cons]
      by_cases hp : produced ((k : ℚ) * i) = true
      · simp [hp]
      · simp [hp]
    · have hkn : numAttempts d i ≤ k := by
        by_contra hc
        exact hlt ((lt_numAttempts_iff d i hi k).mp (Nat.lt_of_not_le hc))
      have hnk : numAttempts d i - k = 0 := by omega
      simp [extractAux, if_neg hlt, hnk, natsFrom]

theorem numAttempts_le_fuel (d : ℚ) (i : ℕ) (hd : 0 < d) (hi : 0 < i) :
    numAttempts d i ≤ ⌈d⌉₊ + 1 := by
  have h1 : d / i ≤ d := by
    apply div_le_self (le_of_lt hd)
    exact_mod_cast hi
  exact le_trans (Nat.ceil_le_ceil h1) (Nat.le_succ _)

theorem extract_frames_eq (produced : ℚ → Bool) (video_id : ℕ) (d : ℚ)
    (i : ℕ) (hd : 0 < d) (hi : 0 < i) :
    extract_frames_from_video produced d video_id i =
      ((natsFrom 0 (numAttempts d i)).map (fun j : ℕ => ((j : ℚ) * i)),
       ((natsFrom 0 (numAttempts d i)).filter
           (fun j : ℕ => produced ((j : ℚ) * i))).map
         (fun j : ℕ => (framePath video_id j ((j : ℚ) * i), ((j : ℚ) * i)))) := by
  have h0 : ((0 : ℕ) : ℚ) * (i : ℚ) = 0 := by norm_num
  have := extractAux_eq produced (framePath video_id) d i hi (⌈d⌉₊ + 1) 0
    (by simpa using numAttempts_le_fuel d i hd hi)
  rw [extract_frames_from_video, ← h0, this]
  simp

/-- C3: with probed duration `d > 0` and interval `i > 0`, the extraction
loop attempts extraction exactly at the timestamps `0, i, 2i, ...` that
are strictly less than `d`, and a `(path, timestamp)` pair is recorded
exactly for the attempts at which the ffmpeg tool produced a file. -/
theorem extract_frames_from_video_spec (produced : ℚ → Bool) (video_id : ℕ)
    (d : ℚ) (i : ℕ) (hd : 0 < d) (hi : 0 < i) :
    (∀ t : ℚ, t ∈ (extract_frames_from_video produced d video_id i).1 ↔
      ∃ k : ℕ, t = (k : ℚ) * i ∧ t < d) ∧
    (∀ p, p ∈ (extract_frames_from_video produced d video_id i).2 ↔
      ∃ k : ℕ, ((k : ℚ) * i) < d ∧ produced ((k : ℚ) * i) = true ∧
        p = (framePath video_id k ((k : ℚ) * i), ((k : ℚ) * i))) := by
  rw [extract_frames_eq produced video_id d i hd hi]
  constructor
  · intro t
    simp only [List.mem_map, mem_natsFrom, Nat.zero_le, true_and, Nat.zero_add]
    constructor
    · rintro ⟨k, hk, rfl⟩
      exact ⟨k, rfl, (lt_numAttempts_iff d i hi k).mp hk⟩
    · rintro ⟨k, rfl, hk⟩
      exact ⟨k, (lt_numAttempts_iff d i hi k).mpr hk, rfl⟩
  · intro p
    simp only [List.mem_map, List.mem_filter, mem_natsFrom, Nat.zero_le,
      true_and, Nat.zero_add]
    constructor
    · rintro ⟨k, ⟨hk, hp⟩, rfl⟩
      exact ⟨k, (lt_numAttempts_iff d i hi k).mp hk, hp, rfl⟩
    · rintro ⟨k, hk, hp, rfl⟩
      exact ⟨k, ⟨(lt_numAttempts_iff d i hi k).mpr hk, hp⟩, rfl⟩

theorem numAttempts_25_10 : numAttempts 25 10 = 3 := by
  rw [numAttempts, show ((10 : ℕ) : ℚ) = 10 by norm_num, Nat.ceil_eq_iff] <;> norm_num

/-- Witness for C3: duration 25, interval 10 gives exactly the three
attempts `t = 0, 10, 20`, and with the tool succeeding only at `t = 10`
exactly one pair is recorded. -/
theorem extract_frames_from_video_spec_witness :
    (0 : ℚ) < 25 ∧ 0 < 10 ∧
    (∀ t : ℚ,
      t ∈ (extract_frames_from_video (fun t => t == 10) 25 7 10).1 ↔
      ∃ k : ℕ, t = (k : ℚ) * 10 ∧ t < 25) ∧
    (extract_frames_from_video (fun t => t == 10) 25 7 10).1 = [0, 10, 20] ∧
    (extract_frames_from_video (fun t => t == 10) 25 7 10).2 =
      [(framePath 7 1 10, 10)] := by
  have heq := extract_frames_eq (fun t => t == 10) 7 25 10 (by norm_num) (by norm_num)
  rw [numAttempts_25_10] at heq
  refine ⟨by norm_num, by norm_num, ?_, ?_, ?_⟩
  · exact (extract_frames_from_video_spec (fun t => t == 10) 7 25 10
      (by norm_num) (by norm_num)).1
  · rw [heq]
    norm_num [natsFrom]
  · rw [heq]
    norm_num [natsFrom, List.filter_cons, beq_iff_eq]

/-- C4: when at least one Frame row exists for the video,
`process_video_frames` returns exactly the existing rows and leaves the
whole state (frames table, id counter, download count) unchanged: no
download and no extraction happen. -/
theorem process_video_frames_idempotent (st : ExtState) (video_id : ℕ)
    (download : Except String String) (produced : ℚ → Bool)
    (duration : ℚ) (interval : ℕ)
    (h : framesOf st.frames video_id ≠ []) :
    process_video_frames st video_id download produced duration interval =
      (.ok (framesOf st.frames video_id), st) := by
  unfold process_video_frames
  rw [if_neg]
  simp [List.isEmpty_iff, h]

/-- Witness for C4 at a concrete state holding two frames of video 1. -/
theorem process_video_frames_idempotent_witness :
    framesOf dbW 1 ≠ [] ∧
    process_video_frames ⟨dbW, 3, 0⟩ 1 (.ok "tmp/video.mp4")
        (fun _ => true) 25 10 =
      (.ok (framesOf dbW 1), ⟨dbW, 3, 0⟩) := by
  have h : framesOf dbW 1 ≠ [] := by simp [framesOf, dbW]
  exact ⟨h,
    process_video_frames_idempotent ⟨dbW, 3, 0⟩ 1 (.ok "tmp/video.mp4")
      (fun _ => true) 25 10 h⟩

end FrameExtractor

namespace SimpleEmbeddings

open FrameExtractor (framesOf)

/-- C5 counterexample: a run of `generate_frame_embeddings` in which every
image fails to load produces zero triples, yet completes (returning
`success`) and leaves the prior artifact — including its stale triple —
in place, so the stored artifact is not "exactly the triples produced by
that call". -/
theorem generate_frame_embeddings_cex :
    producedTriples dbC5 1 (fun _ => none) = [] ∧
    (generate_frame_embeddings dbC5 1 (fun _ => none) (some priorC5)).1 =
      .ok 0 1 none ∧
    (generate_frame_embeddings dbC5 1 (fun _ => none) (some priorC5)).2 =
      some priorC5 ∧
    some priorC5 ≠ some (producedTriples dbC5 1 (fun _ => none)) := by
  have hp : producedTriples dbC5 1 (fun _ => none) = [] := by
    simp [producedTriples, framesOf, dbC5]
  have hfr : (framesOf dbC5 1).isEmpty = false := by simp [framesOf, dbC5]
  have hlen : (framesOf dbC5 1).length = 1 := by simp [framesOf, dbC5]
  refine ⟨hp, ?_, ?_, ?_⟩
  · unfold generate_frame_embeddings
    simp [hfr, hp, hlen]
  · unfold generate_frame_embeddings
    simp [hfr, hp, hlen]
  · rw [hp]
    simp [priorC5]

/-- C5 as amended: the artifact after `generate_frame_embeddings` is
exactly the set of triples produced by that call whenever that set is
nonempty (wholesale replacement, no triple of any earlier run surviving),
and is the unchanged prior artifact when the call produced no triple. -/
theorem generate_frame_embeddings_replace (db : List Frame) (video_id : ℕ)
    (loadEmbed : Frame → Option (List ℚ)) (prior : Option (List EmbItem)) :
    (generate_frame_embeddings db video_id loadEmbed prior).2 =
      if producedTriples db video_id loadEmbed = [] then prior
      else some (producedTriples db video_id loadEmbed) := by
  unfold generate_frame_embeddings
  by_cases hf : (framesOf db video_id).isEmpty
  · have hp : producedTriples db video_id loadEmbed = [] := by
      unfold producedTriples
      rw [List.isEmpty_iff.mp hf]
      rfl
    simp [hf, hp]
  · by_cases hp : producedTriples db video_id loadEmbed = []
    · simp [hf, hp]
    · simp [hf, hp, List.isEmpty_iff]

/-- C1 counterexample: two frames with the same stored vector receive
exactly equal similarities, so the returned list is not *strictly*
descending in similarity. -/
theorem search_visual_content_strict_cex :
    ¬ List.Chain' (fun a b : SearchResult => b.similarity < a.similarity)
      (search_visual_content (.ok ()) dbC1 (some (.ok artC1)) (.ok [1]) dot 10) := by
  have : search_visual_content (.ok ()) dbC1 (some (.ok artC1)) (.ok [1]) dot 10 =
      [⟨1, 0, "storage/frames/1/f0.jpg", 1⟩, ⟨2, 10, "storage/frames/1/f1.jpg", 1⟩] := by
    unfold search_visual_content
    simp [artC1, dot, List.insertionSort, List.orderedInsert, findFrame, dbC1]
  rw [this]
  simp [List.chain'_cons]

/-- C1 as amended: for every model/database/artifact/query/limit, visual
search returns results ordered by weakly descending (non-increasing)
similarity, returns at most `limit` results, and returns `[]` (never an
error) when no embedding artifact exists. -/
theorem search_visual_content_spec (loadModel : Except String Unit)
    (db : List Frame) (artifactFile : Option (Except String (List EmbItem)))
    (encodeQuery : Except String (List ℚ)) (sim : List ℚ → List ℚ → ℚ)
    (limit : ℕ) :
    List.Chain' (fun a b : SearchResult => b.similarity ≤ a.similarity)
      (search_visual_content loadModel db artifactFile encodeQuery sim limit) ∧
    (search_visual_content loadModel db artifactFile encodeQuery sim limit).length
      ≤ limit ∧
    search_visual_content loadModel db none encodeQuery sim limit = [] := by
  refine ⟨?_, ?_, ?_⟩
  · match loadModel with
    | .error _ => exact List.chain'_nil
    | .ok _ =>
      match artifactFile with
      | none => exact List.chain'_nil
      | some (.error _) => exact List.chain'_nil
      | some (.ok data) =>
        by_cases hd : data.isEmpty
        · simp only [search_visual_content, hd, if_true]
          exact List.chain'_nil
        · match encodeQuery with
          | .error _ => simp only [search_visual_content, hd, if_false]; exact List.chain'_nil
          | .ok qv =>
            simp only [search_visual_content, hd, if_false]
            apply List.Pairwise.chain'
            apply List.Pairwise.filterMap
              (R := fun a b : SearchHit => b.similarity ≤ a.similarity)
            · intro a a' h b hb b' hb'
              simp only [Option.mem_map] at hb hb'
              obtain ⟨f, _, rfl⟩ := hb
              obtain ⟨f', _, rfl⟩ := hb'
              exact h
            · exact List.Pairwise.sublist (List.take_sublist _ _)
                (List.sorted_insertionSort _ _)
  · match loadModel with
    | .error _ => exact Nat.zero_le _
    | .ok _ =>
      match artifactFile with
      | none => exact Nat.zero_le _
      | some (.error _) => exact Nat.zero_le _
      | some (.ok data) =>
        by_cases hd : data.isEmpty
        · simp only [search_visual_content, hd, if_true]
          exact Nat.zero_le _
        · match encodeQuery with
          | .error _ => simp only [search_visual_content, hd, if_false]; exact Nat.zero_le _
          | .ok qv =>
            simp only [search_visual_content, hd, if_false]
            calc (List.filterMap _ _).length
                ≤ (List.take limit _).length := List.length_filterMap_le _ _
              _ ≤ limit := by
                  rw [List.length_take]
                  exact min_le_left _ _
  · cases loadModel <;> rfl

/-- C9: every internal failure of `search_visual_content` — model load
failure, a present but unreadable/corrupt embedding artifact, a
tokenizer/encoder failure — is caught and yields `[]`, the same value as
the no-artifact case, so callers cannot distinguish the failures and no
exception escapes. -/
theorem search_visual_content_never_raises (db : List Frame)
    (artifactFile : Option (Except String (List EmbItem)))
    (encodeQuery : Except String (List ℚ)) (sim : List ℚ → List ℚ → ℚ)
    (limit : ℕ) (loadErr pickleErr encodeErr : String) :
    search_visual_content (.error loadErr) db artifactFile encodeQuery sim limit
      = [] ∧
    search_visual_content (.ok ()) db (some (.error pickleErr)) encodeQuery sim
      limit = [] ∧
    search_visual_content (.ok ()) db artifactFile (.error encodeErr) sim limit
      = [] ∧
    search_visual_content (.ok ()) db none encodeQuery sim limit = [] := by
  refine ⟨rfl, rfl, ?_, rfl⟩
  match artifactFile with
  | none => rfl
  | some (.error _) => rfl
  | some (.ok data) =>
    by_cases hd : data.isEmpty
    · simp [search_visual_content, hd]
    · simp [search_visual_content, hd]

end SimpleEmbeddings

namespace VideoService

/-- C10: for every URL from which no YouTube id can be extracted,
`create_video` fails with the `ValueError` message and leaves the
database state exactly as it was — no `Video` row is inserted for any
state the call starts from. -/
theorem create_video_invalid_url (st : VideoState) (url : String)
    (title : Option String) (h : extract_video_id url = none) :
    create_video st url title =
      (.error ("Could not extract video ID from URL: " ++ url), st) := by
  unfold create_video
  rw [h]

/-- Witness for C10: a URL with no extractable YouTube id is rejected and
a concrete one-row database is left unchanged. -/
theorem create_video_invalid_url_witness :
    extract_video_id "https://example.com/video" = none ∧
    create_video ⟨[⟨1, "https://youtu.be/abc123", "Video abc123"⟩], 2⟩
        "https://example.com/video" none =
      (.error ("Could not extract video ID from URL: https://example.com/video"),
       ⟨[⟨1, "https://youtu.be/abc123", "Video abc123"⟩], 2⟩) := by
  have h : extract_video_id "https://example.com/video" = none := by decide
  exact ⟨h, create_video_invalid_url _ _ _ h⟩

end VideoService

namespace LangChain

open PyStr

/-- Evenly distributed timing over a nonempty title list: nonempty
output, strictly increasing `end_time`, first `start_time` 0, last
`end_time` 300. -/
theorem sectionTimes_spec (ts : List String) (h : ts ≠ []) :
    (ts.enum.map (fun p =>
        SectionDraft.mk p.2 ((p.1 : ℚ) * (300 / ts.length))
          (((p.1 : ℚ) + 1) * (300 / ts.length)))) ≠ [] ∧
    List.Chain' (fun a b : SectionDraft => a.end_time < b.end_time)
      (ts.enum.map (fun p =>
        SectionDraft.mk p.2 ((p.1 : ℚ) * (300 / ts.length))
          (((p.1 : ℚ) + 1) * (300 / ts.length)))) ∧
    ((ts.enum.map (fun p =>
        SectionDraft.mk p.2 ((p.1 : ℚ) * (300 / ts.length))
          (((p.1 : ℚ) + 1) * (300 / ts.length)))).head?.map
       SectionDraft.start_time) = some 0 ∧
    ((ts.enum.map (fun p =>
        SectionDraft.mk p.2 ((p.1 : ℚ) * (300 / ts.length))
          (((p.1 : ℚ) + 1) * (300 / ts.length)))).getLast?.map
       SectionDraft.end_time) = some 300 := by
  have hn : 0 < ts.length := List.length_pos.mpr h
  have hnq : (0 : ℚ) < (ts.length : ℚ) := by exact_mod_cast hn
  have hdur : (0 : ℚ) < 300 / ts.length := by positivity
  have hlen : (ts.enum.map (fun p =>
      SectionDraft.mk p.2 ((p.1 : ℚ) * (300 / ts.length))
        (((p.1 : ℚ) + 1) * (300 / ts.length)))).length = ts.length := by
    rw [List.length_map, List.enum_length]
  refine ⟨?_, ?_, ?_, ?_⟩
  · intro hc
    rw [hc] at hlen
    simp at hlen
    omega
  · rw [List.chain'_iff_get]
    intro i hi
    rw [hlen] at hi
    have hi1 : i < ts.length := by omega
    have hi2 : i + 1 < ts.length := by omega
    have h1 : i < ts.enum.length := by rw [List.enum_length]; exact hi1
    have h2 : i + 1 < ts.enum.length := by rw [List.enum_length]; exact hi2
    rw [List.get_map, List.get_map]
    simp only [List.get_eq_getElem, List.getElem_enum]
    show ((i : ℚ) + 1) * (300 / ts.length) < (((i + 1 : ℕ) : ℚ) + 1) * (300 / ts.length)
    have : ((i : ℚ) + 1) < ((i + 1 : ℕ) : ℚ) + 1 := by push_cast; linarith
    exact mul_lt_mul_of_pos_right this hdur
  · rcases List.exists_cons_of_ne_nil h with ⟨t, rest, rfl⟩
    simp
  · rcases List.exists_cons_of_ne_nil h with ⟨t, rest, rfl⟩
    have hpos : 0 < (t :: rest).length := by simp
    have hidx : (t :: rest).length - 1 <
        ((t :: rest).enum.map (fun p =>
          SectionDraft.mk p.2 ((p.1 : ℚ) * (300 / (t :: rest).length))
            (((p.1 : ℚ) + 1) * (300 / (t :: rest).length)))).length := by
      rw [hlen]; omega
    rw [List.getLast?_eq_getElem?, hlen, List.getElem?_eq_getElem hidx,
      List.getElem_map]
    simp only [List.getElem_enum, Option.map_some']
    congr 1
    show ((((t :: rest).length - 1 : ℕ) : ℚ) + 1) * (300 / ((t :: rest).length : ℚ))
      = 300
    have hlc : (((t :: rest).length - 1 : ℕ) : ℚ) + 1 = ((t :: rest).length : ℚ) := by
      push_cast [Nat.cast_sub hpos]
      ring
    rw [hlc]
    have hne : ((t :: rest).length : ℚ) ≠ 0 := ne_of_gt hnq
    field_simp

/-- C6 counterexample: a language-model reply with exactly one parsable
title makes `generate_sections` return a single section — not between 3
and 5. -/
theorem generate_sections_count_cex :
    (generate_sections true (.ok "1. A single long title")).length = 1 ∧
    ¬ (3 ≤ (generate_sections true (.ok "1. A single long title")).length ∧
       (generate_sections true (.ok "1. A single long title")).length ≤ 5) := by
  have h : (generate_sections true (.ok "1. A single long title")).length = 1 := by
    rfl
  refine ⟨h, ?_⟩
  rw [h]
  omega

/-- C6 as amended: for every vector-store state and language-model reply,
`generate_sections` returns a nonempty list of titled sections with
strictly increasing `end_time`, first `start_time` 0 and last `end_time`
300 (the assumed total duration); the count is 3–5 only for the fixed
fallback lists and for replies parsing to 3–5 titles, since the parsed
title count is passed through unclamped. -/
theorem generate_sections_spec (chainExists : Bool)
    (qaResult : Except String String) :
    generate_sections chainExists qaResult ≠ [] ∧
    List.Chain' (fun a b : SectionDraft => a.end_time < b.end_time)
      (generate_sections chainExists qaResult) ∧
    (generate_sections chainExists qaResult).head?.map SectionDraft.start_time
      = some 0 ∧
    (generate_sections chainExists qaResult).getLast?.map SectionDraft.end_time
      = some 300 := by
  cases chainExists with
  | false =>
    refine ⟨by simp [generate_sections], ?_, rfl, rfl⟩
    have hform : generate_sections false qaResult =
        [⟨"Introduction", 0, 60⟩, ⟨"Main Content", 60, 240⟩,
         ⟨"Conclusion", 240, 300⟩] := rfl
    rw [hform]
    refine List.chain'_cons.mpr ⟨by norm_num, List.chain'_cons.mpr ⟨by norm_num, ?_⟩⟩
    exact List.chain'_singleton _
  | true =>
    cases qaResult with
    | error e =>
      refine ⟨by simp [generate_sections], ?_, rfl, rfl⟩
      have hform : generate_sections true (.error e) =
          [⟨"Video Introduction", 0, 75⟩, ⟨"Main Content", 75, 225⟩,
           ⟨"Summary", 225, 300⟩] := rfl
      rw [hform]
      refine List.chain'_cons.mpr ⟨by norm_num, List.chain'_cons.mpr ⟨by norm_num, ?_⟩⟩
      exact List.chain'_singleton _
    | ok answer =>
      by_cases hp : (parseTitles answer).isEmpty
      · have hform : generate_sections true (.ok answer) =
            fallbackTitles.enum.map (fun p =>
              SectionDraft.mk p.2 ((p.1 : ℚ) * (300 / fallbackTitles.length))
                (((p.1 : ℚ) + 1) * (300 / fallbackTitles.length))) := by
          simp only [generate_sections, Bool.not_true, Bool.false_eq_true,
            if_false, hp, if_true]
        rw [hform]
        exact sectionTimes_spec fallbackTitles (by simp [fallbackTitles])
      · have hne : parseTitles answer ≠ [] := by
          intro hc
          rw [hc] at hp
          exact hp rfl
        have hform : generate_sections true (.ok answer) =
            (parseTitles answer).enum.map (fun p =>
              SectionDraft.mk p.2 ((p.1 : ℚ) * (300 / (parseTitles answer).length))
                (((p.1 : ℚ) + 1) * (300 / (parseTitles answer).length))) := by
          simp only [generate_sections, Bool.not_true, Bool.false_eq_true,
            if_false, hp]
        rw [hform]
        exact sectionTimes_spec (parseTitles answer) hne

end LangChain

namespace Routes

open VideoService LangChain

/-- C7: with no transcript available (`fetch_transcript` returned `[]`),
`process_transcript` returns the failure value with `success: false` and
`segments_count: 0` (not an exception), and the upload endpoint still
succeeds, appending exactly one fallback Section
`{title: "Video Content", start_time: 0, end_time: 300}` for the video. -/
theorem upload_video_no_transcript (vst : VideoState)
    (sections : List SectionRow) (url : String) (chunks : List String)
    (chromaOk : Bool) (genSections : List SectionDraft) (video : Video)
    (vst' : VideoState)
    (hok : create_video vst url none = (.ok video, vst')) :
    process_transcript [] chunks chromaOk =
      ⟨false, "No transcript available for this video", 0, 0⟩ ∧
    upload_video vst sections url [] chunks chromaOk genSections =
      .ok (video.id, ⟨false, "No transcript available for this video", 0, 0⟩,
        vst', sections ++ [SectionRow.mk video.id "Video Content" 0 300]) := by
  refine ⟨rfl, ?_⟩
  unfold upload_video
  rw [hok]
  rfl

/-- Witness for C7: uploading `"https://youtu.be/abc123"` with no
transcript creates the video row and exactly the one fallback section. -/
theorem upload_video_no_transcript_witness :
    create_video ⟨[], 1⟩ "https://youtu.be/abc123" none =
      (.ok ⟨1, "https://youtu.be/abc123", "Video abc123"⟩,
       ⟨[⟨1, "https://youtu.be/abc123", "Video abc123"⟩], 2⟩) ∧
    upload_video ⟨[], 1⟩ [] "https://youtu.be/abc123" [] [] true [] =
      .ok (1, ⟨false, "No transcript available for this video", 0, 0⟩,
        ⟨[⟨1, "https://youtu.be/abc123", "Video abc123"⟩], 2⟩,
        [SectionRow.mk 1 "Video Content" 0 300]) := by
  have hok : create_video (⟨[], 1⟩ : VideoState) "https://youtu.be/abc123" none =
      (.ok ⟨1, "https://youtu.be/abc123", "Video abc123"⟩,
       ⟨[⟨1, "https://youtu.be/abc123", "Video abc123"⟩], 2⟩) := by
    rfl
  exact ⟨hok,
    (upload_video_no_transcript ⟨[], 1⟩ [] "https://youtu.be/abc123" [] true []
      ⟨1, "https://youtu.be/abc123", "Video abc123"⟩
      ⟨[⟨1, "https://youtu.be/abc123", "Video abc123"⟩], 2⟩ hok).2⟩

/-- C8 failing input: with the working directory `/app`, the request path
`../storagesecret/x.jpg` resolves to `/app/storagesecret/x.jpg` — outside
the storage root `/app/storage` — yet the handler serves it, because the
string `/app/storagesecret/x.jpg` starts with `/app/storage` (the prefix
check compares strings without a separator). -/
theorem serve_frame_image_escape :
    serve_frame_image ["app".toList] (fun _ => true) "../storagesecret/x.jpg" =
      .ok ["app".toList, "storagesecret".toList, "x.jpg".toList] ∧
    insideStorage ["app".toList]
      ["app".toList, "storagesecret".toList, "x.jpg".toList] = false := by
  constructor
  · rfl
  · rfl

end Routes
